import Mathlib

/-!
Verification of the SimisAI session orchestrator.

The development shallowly embeds the core routing and history logic of the
SimisAI WhatsApp demo server: the history sanitizer `sanitizeHistory`, the
demo step engine `runCapabilityStep`, the freeform engine `runFreeform`,
the per-message dispatcher `handleMessage` with its session store, and the
webhook boundary `smsRoute` that catches engine exceptions.  The repository
contains two generations of the Gemini-backed server; the older generation
(whose dispatcher checks capability selection before the mid-capability
branch) is embedded separately with a `V1` suffix.

The completion service is modelled as an oracle `List Turn → String →
Option String`; `none` models the service call throwing.  JavaScript
strings are Lean `String`s, arrays are Lean lists, and the in-place
mutation of session objects held in the `Map` is modelled by explicit
store updates.
-/

namespace SimisAI

/-- One history entry, `{ role, parts: [{ text }] }` in the source. -/
structure Turn where
  role : String
  text : String
deriving DecidableEq, Repr

/-- A turn pushed as `{ role: "user", parts: [{ text }] }`. -/
def userTurn (text : String) : Turn := ⟨"user", text⟩

/-- A turn pushed as `{ role: "model", parts: [{ text }] }`. -/
def modelTurn (text : String) : Turn := ⟨"model", text⟩

/-- JavaScript `String.prototype.trim`, char-list level. -/
def jsTrim (s : List Char) : List Char :=
  ((s.dropWhile Char.isWhitespace).reverse.dropWhile Char.isWhitespace).reverse

/-- `msg.trim()` on strings. -/
def trimStr (s : String) : String := String.mk (jsTrim s.data)

/-- `msg.toUpperCase()`. -/
def upperStr (s : String) : String := String.mk (s.data.map Char.toUpper)

/-- JavaScript `s.includes(pat)`: substring search at every suffix. -/
def containsSub (pat : List Char) : List Char → Bool
  | [] => pat.isEmpty
  | c :: rest => pat.isPrefixOf (c :: rest) || containsSub pat rest

/-- JavaScript `s.replace(pat, "")` with a string pattern: removes the
first (leftmost) occurrence only. -/
def replaceFirst (pat : List Char) : List Char → List Char
  | [] => []
  | c :: rest =>
    if pat.isPrefixOf (c :: rest) then (c :: rest).drop pat.length
    else c :: replaceFirst pat rest

/-- The reserved completion marker literal `[DEMO_COMPLETE]`. -/
def marker : List Char := "[DEMO_COMPLETE]".data

/-- `reply.includes("[DEMO_COMPLETE]")`. -/
def hasMarker (reply : String) : Bool := containsSub marker reply.data

/-- `reply.replace("[DEMO_COMPLETE]", "").trim()`. -/
def stripMarker (reply : String) : String :=
  String.mk (jsTrim (replaceFirst marker reply.data))

/-- JavaScript `raw.slice(-maxTurns)`.  Note `slice(-0)` is `slice(0)`,
the whole array, because `-0 === 0`. -/
def jsSliceLast (raw : List Turn) (maxTurns : Nat) : List Turn :=
  if maxTurns = 0 then raw else raw.drop (raw.length - maxTurns)

/-- The push loop of `sanitizeHistory`: starting from the already built
`result`, process the remaining entries, skipping an entry whenever
`result.length > 0 && result[result.length - 1].role === entry.role`. -/
def buildResult (result : List Turn) : List Turn → List Turn
  | [] => result
  | entry :: rest =>
    match result.getLast? with
    | some lastEntry =>
      if lastEntry.role = entry.role then buildResult result rest
      else buildResult (result ++ [entry]) rest
    | none => buildResult (result ++ [entry]) rest

/-- `result.length > 0 && result[result.length - 1].role === "user"`. -/
def endsWithUserRole (l : List Turn) : Bool :=
  match l.getLast? with
  | some t => t.role == "user"
  | none => false

/-- `sanitizeHistory(raw, maxTurns)` from the source: trim to the recent
window, drop leading non-`user` turns, collapse same-role runs keeping
the first of each run, and pop a trailing `user` turn. -/
def sanitizeHistory (raw : List Turn) (maxTurns : Nat) : List Turn :=
  let trimmed := jsSliceLast raw maxTurns
  let afterStart := trimmed.dropWhile (fun t => t.role != "user")
  let result := buildResult [] afterStart
  if endsWithUserRole result then result.dropLast else result

/-- Operational frame for `sanitizeHistory`: the local variables of the
JavaScript function body.  `raw` is the argument array; the function only
ever reads it (`slice`, indexing), so every statement of the embedding
leaves the `raw` field untouched. -/
structure SanFrame where
  raw : List Turn
  maxTurns : Nat
  trimmed : List Turn
  result : List Turn
deriving Repr

/-- The `for` loop of `sanitizeHistory`, statement by statement over the
frame: each iteration either skips or pushes onto `result`; no statement
assigns to `raw`. -/
def sanLoop : SanFrame → List Turn → SanFrame
  | fr, [] => fr
  | fr, entry :: rest =>
    match fr.result.getLast? with
    | some lastEntry =>
      if lastEntry.role = entry.role then sanLoop fr rest
      else sanLoop { fr with result := fr.result ++ [entry] } rest
    | none => sanLoop { fr with result := fr.result ++ [entry] } rest

/-- Full operational run of `sanitizeHistory` carrying the frame. -/
def sanitizeRun (raw : List Turn) (maxTurns : Nat) : SanFrame :=
  let fr0 : SanFrame := ⟨raw, maxTurns, jsSliceLast raw maxTurns, []⟩
  let fr1 := sanLoop fr0 (fr0.trimmed.dropWhile (fun t => t.role != "user"))
  if endsWithUserRole fr1.result then { fr1 with result := fr1.result.dropLast } else fr1

/-- The welcome menu text `MENU`. -/
def MENU : String := "👋 Welcome to the *SimisAI* live demo.

Simi is an AI health companion for epilepsy patients that existing tools leave behind — no app, no smartphone, no internet required. Just a text message, on any phone, in any language.

What makes SimisAI different:
• Works on any phone including basic flip phones
• Fully multilingual and culturally adaptive
• Billable under Remote Patient Monitoring (RPM) codes
• Reaches the 40% of low-income patients excluded by app-based care

Pick a capability to experience it firsthand:

1️⃣ Medication Reminders
2️⃣ Seizure Tracking
3️⃣ Mental Health Screening
4️⃣ Risk Forecasting
5️⃣ Provider Scheduling
6️⃣ Caregiver Coordination
7️⃣ Refill Reminders
8️⃣ Side Effect Monitoring
9️⃣ Language Support

Reply with a number to begin. Reply 0 at any time to return here."

/-- `CAPABILITY_MAP`: menu token to capability id. -/
def CAPABILITY_MAP (msg : String) : Option String :=
  if msg = "1" then some "medication"
  else if msg = "2" then some "seizure"
  else if msg = "3" then some "mental"
  else if msg = "4" then some "risk"
  else if msg = "5" then some "schedule"
  else if msg = "6" then some "caregiver"
  else if msg = "7" then some "refill"
  else if msg = "8" then some "sideeffect"
  else if msg = "9" then some "language"
  else none

/-- `CAPABILITIES`: capability id to description. -/
def CAPABILITIES (cap : String) : Option String :=
  if cap = "medication" then some "medication reminders and adherence tracking"
  else if cap = "seizure" then some "seizure tracking and emergency escalation"
  else if cap = "mental" then some "mental health screening embedded in casual conversation"
  else if cap = "risk" then some "personalized seizure risk forecasting"
  else if cap = "schedule" then some "scheduling a provider call and generating a visit summary"
  else if cap = "caregiver" then some "caregiver coordination with patient-controlled privacy"
  else if cap = "refill" then some "medication refill reminders"
  else if cap = "sideeffect" then some "side effect monitoring"
  else if cap = "language" then some "multilingual adaptability — if the user writes in another language, respond fully in that language with culturally native phrasing to demonstrate this capability"
  else none

/-- `INSIGHTS`: capability id to closing insight line. -/
def INSIGHTS (cap : String) : Option String :=
  if cap = "medication" then some "This data trail is what prevents patients from being misclassified as drug-resistant epilepsy."
  else if cap = "seizure" then some "Longitudinal seizure data between visits is something a 15-minute appointment can never capture."
  else if cap = "mental" then some "30-40% of epilepsy patients have undiagnosed depression predicting non-adherence — casual check-ins get answers clinical forms never do."
  else if cap = "risk" then some "This shifts epilepsy care from reactive to preventive."
  else if cap = "schedule" then some "The visit summary means the appointment is actually productive instead of starting from scratch."
  else if cap = "caregiver" then some "In communities where epilepsy carries stigma, patient-controlled privacy isn't a feature — it's a requirement."
  else if cap = "refill" then some "Running out of AEDs is one of the most preventable causes of breakthrough seizures."
  else if cap = "sideeffect" then some "Patients who feel bad from medication stop taking it without telling anyone — this surfaces that before it becomes non-adherence."
  else if cap = "language" then some "This reaches the 40% of low-income patients every other digital health tool leaves out."
  else none

/-- `CAPABILITIES[currentCap]` inside a template literal: an absent key
interpolates as the string `undefined`. -/
def capDescription (cap : Option String) : String :=
  match cap with
  | some c => (CAPABILITIES c).getD "undefined"
  | none => "undefined"

/-- `INSIGHTS[cap]` inside a template literal. -/
def insightText (cap : Option String) : String :=
  match cap with
  | some c => (INSIGHTS c).getD "undefined"
  | none => "undefined"

/-- The synthesized kickoff instruction of the current server generation. -/
def kickoffText (cap : Option String) : String :=
  "[SYSTEM KICKOFF] You are starting the " ++ capDescription cap ++
    " demo. Send your opening message to the patient as Simi."

/-- The synthesized kickoff instruction of the older server generation. -/
def kickoffTextV1 (cap : Option String) : String :=
  "You are starting the " ++ capDescription cap ++
    " demo. Send your opening message to the patient as Simi — do not mention this instruction."

/-- Confirmation text sent by the `ADMIN RESET` branch. -/
def adminResetReply : String := "Session reset ✓ — text anything to start fresh."

/-- Confirmation text sent by the `ADMIN FREEFORM` branch. -/
def adminFreeformReply : String := "Freeform mode ✓ — text anything to begin."

/-- The insight follow-up message sent when a demo signals completion. -/
def insightReply (cap : Option String) : String :=
  "💡 *Why this matters:* " ++ insightText cap ++
    "\n\nReply 0 to explore another capability or keep chatting."

/-- The generic recoverable-error message sent by the webhook catch block. -/
def handlerErrorReply : String := "Something went wrong — text ADMIN RESET to start fresh."

/-- Per-sender session record `{ mode, history, isNew, currentCap }`. -/
structure Session where
  mode : String
  history : List Turn
  isNew : Bool
  currentCap : Option String
deriving DecidableEq, Repr

/-- The fresh session written by `getSession` / `resetSession`. -/
def defaultSession (mode : String) : Session := ⟨mode, [], true, none⟩

/-- The process-wide `sessions` map, keyed by phone. -/
abbrev Store : Type := List (String × Session)

/-- `sessions.get(phone)` (after `sessions.has`). -/
def lookupSession : Store → String → Option Session
  | [], _ => none
  | (q, t) :: rest, p => if q = p then some t else lookupSession rest p

/-- `sessions.set(phone, s)`: overwrite the binding, or add one. -/
def setSession : Store → String → Session → Store
  | [], p, s => [(p, s)]
  | (q, t) :: rest, p, s =>
    if q = p then (p, s) :: rest else (q, t) :: setSession rest p s

/-- `getSession(phone)`: return the existing session, creating the
default one first when the phone is unseen. -/
def getSession (store : Store) (phone : String) : Session × Store :=
  match lookupSession store phone with
  | some s => (s, store)
  | none => (defaultSession "demo", setSession store phone (defaultSession "demo"))

/-- The completion service: sanitized prior turns and the new message in,
generated text out; `none` models the call throwing. -/
abbrev Oracle : Type := List Turn → String → Option String

/-- `runCapabilityStep(session, userMsg, isKickoff)`: push the user turn
(the literal message, or the synthesized kickoff instruction), call the
service on the sanitized 20-turn window excluding the just-pushed turn,
push the model reply, and report the stripped reply plus the completion
flag.  Returns the mutated session and `none` for the reply when the
service call throws (the user turn stays pushed). -/
def runCapabilityStep (g : Oracle) (session : Session) (userMsg : String)
    (isKickoff : Bool) : Session × Option (String × Bool) :=
  let messageToSend := if isKickoff then kickoffText session.currentCap else userMsg
  let history1 := session.history ++ [userTurn messageToSend]
  let pastHistory := sanitizeHistory history1.dropLast 20
  match g pastHistory messageToSend with
  | none => ({ session with history := history1 }, none)
  | some reply =>
    let isDone := hasMarker reply
    let cleanReply := stripMarker reply
    ({ session with history := history1 ++ [modelTurn reply] }, some (cleanReply, isDone))

/-- `runFreeform(session, userMsg)`: same shape with a 30-turn window and
no completion detection. -/
def runFreeform (g : Oracle) (session : Session) (userMsg : String) :
    Session × Option String :=
  let history1 := session.history ++ [userTurn userMsg]
  let pastHistory := sanitizeHistory history1.dropLast 30
  match g pastHistory userMsg with
  | none => ({ session with history := history1 }, none)
  | some reply => ({ session with history := history1 ++ [modelTurn reply] }, some reply)

/-- Result of one dispatch: the updated store, the texts sent to the
sender in order, and whether an engine exception escaped `handleMessage`. -/
structure HandleOut where
  store : Store
  sent : List String
  threw : Bool
deriving DecidableEq, Repr

/-- The demo-mode routing below the first-contact check: menu return,
then the mid-capability branch, then capability selection, then the
fallback menu. -/
def routeDemo (g : Oracle) (store : Store) (phone : String) (session : Session)
    (msg : String) : HandleOut :=
  if msg = "0" then
    ⟨setSession store phone { session with currentCap := none, history := [] }, [MENU], false⟩
  else
    match session.currentCap with
    | some _ =>
      match runCapabilityStep g session msg false with
      | (session1, none) => ⟨setSession store phone session1, [], true⟩
      | (session1, some (reply, isDone)) =>
        if isDone then
          ⟨setSession store phone { session1 with currentCap := none },
            [reply, insightReply session1.currentCap], false⟩
        else ⟨setSession store phone session1, [reply], false⟩
    | none =>
      match CAPABILITY_MAP msg with
      | some capId =>
        let session1 := { session with currentCap := some capId, history := [] }
        match runCapabilityStep g session1 "" true with
        | (session2, none) => ⟨setSession store phone session2, [], true⟩
        | (session2, some (reply, isDone)) =>
          if isDone then
            ⟨setSession store phone { session2 with currentCap := none },
              [reply, insightReply (some capId)], false⟩
          else ⟨setSession store phone session2, [reply], false⟩
      | none => ⟨store, [MENU], false⟩

/-- `handleMessage(from, body)` of the current server generation: fetch
or create the session, then route by precedence — admin commands,
freeform mode, first contact, then `routeDemo`. -/
def handleMessage (g : Oracle) (store : Store) (phone body : String) : HandleOut :=
  let fetched := getSession store phone
  let session := fetched.1
  let store1 := fetched.2
  let msg := trimStr body
  let cmd := upperStr msg
  if cmd = "ADMIN RESET" then
    ⟨setSession store1 phone (defaultSession "demo"), [adminResetReply, MENU], false⟩
  else if cmd = "ADMIN FREEFORM" then
    ⟨setSession store1 phone (defaultSession "freeform"), [adminFreeformReply], false⟩
  else if cmd = "ADMIN DEMO" then
    ⟨setSession store1 phone (defaultSession "demo"), [MENU], false⟩
  else if session.mode = "freeform" then
    match runFreeform g session msg with
    | (session1, none) => ⟨setSession store1 phone session1, [], true⟩
    | (session1, some reply) => ⟨setSession store1 phone session1, [reply], false⟩
  else if session.isNew then
    ⟨setSession store1 phone { session with isNew := false }, [MENU], false⟩
  else
    routeDemo g store1 phone session msg

/-- The `app.post("/sms")` boundary: run `handleMessage` and, when it
throws, catch the exception and send the generic error message instead. -/
def smsRoute (g : Oracle) (store : Store) (phone body : String) : Store × List String :=
  let out := handleMessage g store phone body
  if out.threw then (out.store, out.sent ++ [handlerErrorReply]) else (out.store, out.sent)

/-- Fold a sequence of inbound `(phone, body)` messages through the
dispatcher, starting from a given store. -/
def runMessages (g : Oracle) : Store → List (String × String) → Store
  | store, [] => store
  | store, (phone, body) :: rest => runMessages g (handleMessage g store phone body).store rest

/-- `runCapabilityStep` of the older server generation: no push on
kickoff, raw `slice(0, -1).slice(-20)` window with no sanitization. -/
def runCapabilityStepV1 (g : Oracle) (session : Session) (userMsg : String)
    (isKickoff : Bool) : Session × Option (String × Bool) :=
  let messageToSend := if isKickoff then kickoffTextV1 session.currentCap else userMsg
  let history1 := if isKickoff then session.history else session.history ++ [userTurn userMsg]
  let pastHistory := jsSliceLast history1.dropLast 20
  match g pastHistory messageToSend with
  | none => ({ session with history := history1 }, none)
  | some reply =>
    ({ session with history := history1 ++ [modelTurn reply] },
      some (stripMarker reply, hasMarker reply))

/-- `runFreeform` of the older server generation. -/
def runFreeformV1 (g : Oracle) (session : Session) (userMsg : String) :
    Session × Option String :=
  let history1 := session.history ++ [userTurn userMsg]
  let pastHistory := jsSliceLast history1.dropLast 30
  match g pastHistory userMsg with
  | none => ({ session with history := history1 }, none)
  | some reply => ({ session with history := history1 ++ [modelTurn reply] }, some reply)

/-- Demo-mode routing of the older server generation: here the capability
selection check comes before the mid-capability check. -/
def routeDemoV1 (g : Oracle) (store : Store) (phone : String) (session : Session)
    (msg : String) : HandleOut :=
  if msg = "0" then
    ⟨setSession store phone { session with currentCap := none, history := [] }, [MENU], false⟩
  else
    match CAPABILITY_MAP msg with
    | some capId =>
      let session1 := { session with currentCap := some capId, history := [] }
      match runCapabilityStepV1 g session1 "" true with
      | (session2, none) => ⟨setSession store phone session2, [], true⟩
      | (session2, some (reply, isDone)) =>
        if isDone then
          ⟨setSession store phone { session2 with currentCap := none },
            [reply, insightReply (some capId)], false⟩
        else ⟨setSession store phone session2, [reply], false⟩
    | none =>
      match session.currentCap with
      | some _ =>
        match runCapabilityStepV1 g session msg false with
        | (session1, none) => ⟨setSession store phone session1, [], true⟩
        | (session1, some (reply, isDone)) =>
          if isDone then
            ⟨setSession store phone { session1 with currentCap := none },
              [reply, insightReply session1.currentCap], false⟩
          else ⟨setSession store phone session1, [reply], false⟩
      | none => ⟨store, [MENU], false⟩

/-- `handleMessage` of the older server generation. -/
def handleMessageV1 (g : Oracle) (store : Store) (phone body : String) : HandleOut :=
  let fetched := getSession store phone
  let session := fetched.1
  let store1 := fetched.2
  let msg := trimStr body
  let cmd := upperStr msg
  if cmd = "ADMIN RESET" then
    ⟨setSession store1 phone (defaultSession "demo"), [adminResetReply, MENU], false⟩
  else if cmd = "ADMIN FREEFORM" then
    ⟨setSession store1 phone (defaultSession "freeform"), [adminFreeformReply], false⟩
  else if cmd = "ADMIN DEMO" then
    ⟨setSession store1 phone (defaultSession "demo"), [MENU], false⟩
  else if session.mode = "freeform" then
    match runFreeformV1 g session msg with
    | (session1, none) => ⟨setSession store1 phone session1, [], true⟩
    | (session1, some reply) => ⟨setSession store1 phone session1, [reply], false⟩
  else if session.isNew then
    ⟨setSession store1 phone { session with isNew := false }, [MENU], false⟩
  else
    routeDemoV1 g store1 phone session msg

/-- An oracle whose completion call always succeeds with the text `ok`. -/
def okOracle : Oracle := fun _ _ => some "ok"

/-- An oracle whose completion call always throws. -/
def failOracle : Oracle := fun _ _ => none

/-- An oracle that always answers with a completion-marked reply. -/
def markerOracle : Oracle := fun _ _ => some "Great job! [DEMO_COMPLETE]"

/-- Adjacent turns carry different roles. -/
def RolesAlternate (l : List Turn) : Prop :=
  List.Chain' (fun a b => a.role ≠ b.role) l

/-- The session invariant of the dispatcher: the mode is one of the two
modes, any active capability is a registered key of both `CAPABILITIES`
and `INSIGHTS`, and freeform mode never has an active capability. -/
def SessionInv (s : Session) : Prop :=
  (s.mode = "demo" ∨ s.mode = "freeform") ∧
    (∀ c, s.currentCap = some c → (CAPABILITIES c).isSome ∧ (INSIGHTS c).isSome) ∧
    (s.mode = "freeform" → s.currentCap = none)

/-- Every session held in the store satisfies `SessionInv`. -/
def StoreInv (store : Store) : Prop :=
  ∀ phone s, lookupSession store phone = some s → SessionInv s

/-! ## Lemmas about the sanitizer -/

theorem sanitizeHistory_def (raw : List Turn) (n : Nat) :
    sanitizeHistory raw n =
      if endsWithUserRole (buildResult [] ((jsSliceLast raw n).dropWhile (fun t => t.role != "user")))
      then (buildResult [] ((jsSliceLast raw n).dropWhile (fun t => t.role != "user"))).dropLast
      else buildResult [] ((jsSliceLast raw n).dropWhile (fun t => t.role != "user")) := rfl

theorem buildResult_alt (l : List Turn) :
    ∀ acc : List Turn, RolesAlternate acc → RolesAlternate (buildResult acc l) := by
  induction l with
  | nil => intro acc h; exact h
  | cons entry rest ih =>
    intro acc h
    simp only [buildResult]
    split
    next lastEntry hl =>
      split
      next => exact ih acc h
      next hr =>
        refine ih (acc ++ [entry]) ?_
        rw [RolesAlternate, List.chain'_append]
        refine ⟨h, List.chain'_singleton entry, ?_⟩
        intro x hx y hy
        rw [Option.mem_def] at hx hy
        rw [hl] at hx
        obtain rfl : lastEntry = x := by injection hx
        obtain rfl : entry = y := by injection hy
        exact hr
    next hl =>
      have hacc : acc = [] := List.getLast?_eq_none_iff.mp hl
      subst hacc
      exact ih [entry] (List.chain'_singleton entry)

theorem buildResult_head (l : List Turn) :
    ∀ acc : List Turn, acc ≠ [] → (buildResult acc l).head? = acc.head? := by
  induction l with
  | nil => intro acc _; rfl
  | cons entry rest ih =>
    intro acc hacc
    simp only [buildResult]
    split
    next lastEntry hl =>
      split
      next => exact ih acc hacc
      next =>
        rw [ih (acc ++ [entry]) (by simp)]
        cases acc with
        | nil => exact absurd rfl hacc
        | cons a t => simp
    next hl =>
      exact absurd (List.getLast?_eq_none_iff.mp hl) hacc

theorem buildResult_nil_head (l : List Turn) : (buildResult [] l).head? = l.head? := by
  cases l with
  | nil => rfl
  | cons entry rest =>
    show (buildResult ([] ++ [entry]) rest).head? = (entry :: rest).head?
    rw [buildResult_head rest ([] ++ [entry]) (by simp)]
    rfl

theorem dropWhile_head_user (l : List Turn) (t : Turn)
    (h : (l.dropWhile (fun t => t.role != "user")).head? = some t) : t.role = "user" := by
  induction l with
  | nil => simp [List.dropWhile] at h
  | cons a rest ih =>
    rw [List.dropWhile_cons] at h
    by_cases ha : (a.role != "user") = true
    · rw [if_pos ha] at h; exact ih h
    · rw [if_neg ha] at h
      simp only [List.head?_cons, Option.some.injEq] at h
      subst h
      by_contra hne
      exact ha (bne_iff_ne.mpr hne)

theorem head?_dropLast (l : List Turn) (t : Turn) (h : l.dropLast.head? = some t) :
    l.head? = some t := by
  cases l with
  | nil => simp at h
  | cons a rest =>
    cases rest with
    | nil => simp [List.dropLast] at h
    | cons b r =>
      simp only [List.dropLast_cons₂, List.head?_cons] at h ⊢
      exact h

theorem shape_aux (outR : List Turn) (halt : RolesAlternate outR)
    (hhead : ∀ t, outR.head? = some t → t.role = "user") :
    RolesAlternate (if endsWithUserRole outR then outR.dropLast else outR) ∧
      (∀ t, (if endsWithUserRole outR then outR.dropLast else outR).head? = some t →
        t.role = "user") ∧
      (∀ t, (if endsWithUserRole outR then outR.dropLast else outR).getLast? = some t →
        t.role ≠ "user") := by
  by_cases hEnds : endsWithUserRole outR = true
  · rw [if_pos hEnds]
    obtain ⟨u, hu⟩ : ∃ u, outR.getLast? = some u := by
      unfold endsWithUserRole at hEnds
      cases hg : outR.getLast? with
      | none => rw [hg] at hEnds; simp at hEnds
      | some u => exact ⟨u, rfl⟩
    have hu_role : u.role = "user" := by
      unfold endsWithUserRole at hEnds
      rw [hu] at hEnds
      exact eq_of_beq hEnds
    have hsplit : outR.dropLast ++ [u] = outR := List.dropLast_append_getLast? u hu
    have hAlt2 : List.Chain' (fun a b => a.role ≠ b.role) (outR.dropLast ++ [u]) := by
      rw [hsplit]; exact halt
    have hchain := List.chain'_append.mp hAlt2
    refine ⟨hchain.1, ?_, ?_⟩
    · intro t ht
      exact hhead t (head?_dropLast outR t ht)
    · intro t ht
      have hrel := hchain.2.2 t (Option.mem_def.mpr ht) u rfl
      rw [hu_role] at hrel
      exact hrel
  · rw [if_neg hEnds]
    refine ⟨halt, hhead, ?_⟩
    intro t ht he
    refine hEnds ?_
    unfold endsWithUserRole
    rw [ht]
    show (t.role == "user") = true
    rw [he]
    exact beq_self_eq_true _

theorem sanitize_core (raw : List Turn) (n : Nat) :
    RolesAlternate (sanitizeHistory raw n) ∧
      (∀ t, (sanitizeHistory raw n).head? = some t → t.role = "user") ∧
      (∀ t, (sanitizeHistory raw n).getLast? = some t → t.role ≠ "user") := by
  have halt : RolesAlternate
      (buildResult [] ((jsSliceLast raw n).dropWhile (fun t => t.role != "user"))) :=
    buildResult_alt _ [] List.chain'_nil
  have hhead : ∀ t,
      (buildResult [] ((jsSliceLast raw n).dropWhile (fun t => t.role != "user"))).head? =
        some t → t.role = "user" := by
    intro t ht
    rw [buildResult_nil_head] at ht
    exact dropWhile_head_user _ t ht
  exact shape_aux _ halt hhead

theorem buildResult_length (l : List Turn) :
    ∀ acc : List Turn, (buildResult acc l).length ≤ acc.length + l.length := by
  induction l with
  | nil => intro acc; simp [buildResult]
  | cons e rest ih =>
    intro acc
    simp only [buildResult]
    split
    next lastE hl =>
      split
      next =>
        have := ih acc
        simp only [List.length_cons]
        omega
      next =>
        have := ih (acc ++ [e])
        simp only [List.length_append, List.length_cons, List.length_nil] at this ⊢
        omega
    next hl =>
      have := ih (acc ++ [e])
      simp only [List.length_append, List.length_cons, List.length_nil] at this ⊢
      omega

theorem dropWhile_length_le (p : Turn → Bool) (l : List Turn) :
    (l.dropWhile p).length ≤ l.length := by
  induction l with
  | nil => simp
  | cons a rest ih =>
    rw [List.dropWhile_cons]
    split
    · exact le_trans ih (by simp)
    · simp

theorem jsSliceLast_length_le (raw : List Turn) (n : Nat) (hn : n ≠ 0) :
    (jsSliceLast raw n).length ≤ n := by
  unfold jsSliceLast
  rw [if_neg hn]
  rw [List.length_drop]
  omega

theorem jsSliceLast_self (l : List Turn) (n : Nat) (h : l.length ≤ n) :
    jsSliceLast l n = l := by
  unfold jsSliceLast
  split
  · rfl
  · have h0 : l.length - n = 0 := Nat.sub_eq_zero_of_le h
    rw [h0, List.drop_zero]

theorem sanitize_length_le (raw : List Turn) (n : Nat) (hn : n ≠ 0) :
    (sanitizeHistory raw n).length ≤ n := by
  rw [sanitizeHistory_def]
  have h1 := buildResult_length ((jsSliceLast raw n).dropWhile (fun t => t.role != "user")) []
  have h2 : ((jsSliceLast raw n).dropWhile (fun t => t.role != "user")).length ≤
      (jsSliceLast raw n).length := dropWhile_length_le _ _
  have h3 := jsSliceLast_length_le raw n hn
  simp only [List.length_nil] at h1
  split
  · rw [List.length_dropLast]; omega
  · omega

theorem buildResult_of_alt (l : List Turn) :
    ∀ acc : List Turn, RolesAlternate (acc ++ l) → buildResult acc l = acc ++ l := by
  induction l with
  | nil => intro acc _; simp [buildResult]
  | cons e rest ih =>
    intro acc h
    simp only [buildResult]
    split
    next lastE hl =>
      have hne : lastE.role ≠ e.role := by
        have hc := List.chain'_append.mp (show List.Chain' _ (acc ++ e :: rest) from h)
        exact hc.2.2 lastE (Option.mem_def.mpr hl) e rfl
      rw [if_neg hne]
      have happ : (acc ++ [e]) ++ rest = acc ++ e :: rest := by simp
      rw [ih (acc ++ [e]) (by rw [RolesAlternate, happ]; exact h), happ]
    next hl =>
      have hacc : acc = [] := List.getLast?_eq_none_iff.mp hl
      subst hacc
      have := ih [e] (by simpa using h)
      simpa using this

theorem endsWithUserRole_false (l : List Turn)
    (h : ∀ t, l.getLast? = some t → t.role ≠ "user") :
    endsWithUserRole l = false := by
  unfold endsWithUserRole
  cases hg : l.getLast? with
  | none => rfl
  | some t =>
    have := h t hg
    exact beq_eq_false_iff_ne.mpr this

theorem sanitize_fix (out : List Turn) (n : Nat)
    (halt : RolesAlternate out)
    (hhead : ∀ t, out.head? = some t → t.role = "user")
    (hlast : ∀ t, out.getLast? = some t → t.role ≠ "user")
    (hslice : jsSliceLast out n = out) :
    sanitizeHistory out n = out := by
  have hdrop : out.dropWhile (fun t => t.role != "user") = out := by
    cases out with
    | nil => rfl
    | cons a rest =>
      have ha : a.role = "user" := hhead a rfl
      rw [List.dropWhile_cons, if_neg (by simp [ha])]
  have hbuild : buildResult [] out = out := by
    have := buildResult_of_alt out [] (by simpa using halt)
    simpa using this
  rw [sanitizeHistory_def, hslice, hdrop, hbuild, endsWithUserRole_false out hlast]
  simp

/-! ## Lemmas about the operational sanitizer frame -/

theorem sanLoop_raw (l : List Turn) : ∀ fr : SanFrame, (sanLoop fr l).raw = fr.raw := by
  induction l with
  | nil => intro fr; rfl
  | cons e rest ih =>
    intro fr
    simp only [sanLoop]
    split
    next lastE hl =>
      split
      next => exact ih fr
      next => rw [ih]
    next => rw [ih]

theorem sanLoop_result (l : List Turn) :
    ∀ fr : SanFrame, (sanLoop fr l).result = buildResult fr.result l := by
  induction l with
  | nil => intro fr; rfl
  | cons e rest ih =>
    intro fr
    simp only [sanLoop, buildResult]
    split
    next lastE hl =>
      split
      next => exact ih fr
      next => exact ih _
    next => exact ih _

/-! ## Lemmas about the completion marker -/

theorem containsSub_of_isPrefixOf (pat s : List Char) (h : pat.isPrefixOf s = true) :
    containsSub pat s = true := by
  cases s with
  | nil =>
    have h1 : pat <+: [] := List.isPrefixOf_iff_prefix.mp h
    have h2 : pat = [] := List.prefix_nil.mp h1
    subst h2
    rfl
  | cons c rest =>
    unfold containsSub
    rw [h]
    rfl

theorem containsSub_append_marker (pre post : List Char) :
    containsSub marker (pre ++ marker ++ post) = true := by
  induction pre with
  | nil =>
    apply containsSub_of_isPrefixOf
    apply List.isPrefixOf_iff_prefix.mpr
    exact List.prefix_append marker post
  | cons c pre ih =>
    show containsSub marker (c :: (pre ++ marker ++ post)) = true
    unfold containsSub
    rw [ih]
    simp

theorem containsSub_decomp (s : List Char) (h : containsSub marker s = true) :
    ∃ pre post, s = pre ++ marker ++ post ∧ replaceFirst marker s = pre ++ post := by
  induction s with
  | nil => exact absurd h (by decide)
  | cons c rest ih =>
    by_cases hp : marker.isPrefixOf (c :: rest) = true
    · obtain ⟨post, hpost⟩ := List.isPrefixOf_iff_prefix.mp hp
      refine ⟨[], post, by simpa using hpost.symm, ?_⟩
      unfold replaceFirst
      rw [if_pos hp, ← hpost, List.drop_left]
      rfl
    · have hrest : containsSub marker rest = true := by
        unfold containsSub at h
        rcases Bool.or_eq_true_iff.mp h with h1 | h1
        · exact absurd h1 hp
        · exact h1
      obtain ⟨pre, post, h1, h2⟩ := ih hrest
      refine ⟨c :: pre, post, by simp [h1], ?_⟩
      unfold replaceFirst
      rw [if_neg hp, h2]
      rfl

/-! ## Lemmas about the session store -/

theorem lookup_setSession_self (store : Store) (phone : String) (s : Session) :
    lookupSession (setSession store phone s) phone = some s := by
  induction store with
  | nil => simp [setSession, lookupSession]
  | cons qt rest ih =>
    obtain ⟨q, t⟩ := qt
    by_cases hq : q = phone
    · rw [show setSession ((q, t) :: rest) phone s = (phone, s) :: rest from by
        simp [setSession, hq]]
      simp [lookupSession]
    · rw [show setSession ((q, t) :: rest) phone s = (q, t) :: setSession rest phone s from by
        simp [setSession, hq]]
      simp only [lookupSession]
      rw [if_neg hq]
      exact ih

theorem lookup_setSession_other (store : Store) (phone q : String) (s : Session)
    (h : q ≠ phone) :
    lookupSession (setSession store phone s) q = lookupSession store q := by
  induction store with
  | nil =>
    simp only [setSession, lookupSession]
    rw [if_neg (fun hh => h hh.symm)]
  | cons qt rest ih =>
    obtain ⟨q1, t⟩ := qt
    simp only [setSession]
    by_cases h1 : q1 = phone
    · rw [if_pos h1]
      simp only [lookupSession]
      rw [if_neg (fun hh => h hh.symm), if_neg (by rw [h1]; exact fun hh => h hh.symm)]
    · rw [if_neg h1]
      simp only [lookupSession]
      by_cases h2 : q1 = q
      · rw [if_pos h2, if_pos h2]
      · rw [if_neg h2, if_neg h2, ih]

/-! ## The reachable-session invariant -/

theorem storeInv_set (store : Store) (phone : String) (s : Session)
    (hst : StoreInv store) (hs : SessionInv s) : StoreInv (setSession store phone s) := by
  intro q s' hq
  by_cases h : q = phone
  · subst h
    rw [lookup_setSession_self] at hq
    injection hq with hq
    subst hq
    exact hs
  · rw [lookup_setSession_other store phone q s h] at hq
    exact hst q s' hq

theorem sessionInv_default_demo : SessionInv (defaultSession "demo") :=
  ⟨Or.inl rfl, by simp [defaultSession], by simp [defaultSession]⟩

theorem sessionInv_default_freeform : SessionInv (defaultSession "freeform") :=
  ⟨Or.inr rfl, by simp [defaultSession], by simp [defaultSession]⟩

theorem sessionInv_of_same (s s' : Session) (h : SessionInv s)
    (hm : s'.mode = s.mode) (hc : s'.currentCap = s.currentCap) : SessionInv s' := by
  obtain ⟨h1, h2, h3⟩ := h
  refine ⟨by rw [hm]; exact h1, ?_, ?_⟩
  · intro c hcc
    rw [hc] at hcc
    exact h2 c hcc
  · intro hf
    rw [hm] at hf
    rw [hc]
    exact h3 hf

theorem capability_map_keys (k c : String) (h : CAPABILITY_MAP k = some c) :
    (CAPABILITIES c).isSome ∧ (INSIGHTS c).isSome := by
  unfold CAPABILITY_MAP at h
  split_ifs at h
  all_goals injection h with h
  all_goals subst h
  all_goals constructor <;> decide

theorem runCapabilityStep_same_fields (g : Oracle) (session : Session) (msg : String)
    (k : Bool) :
    ((runCapabilityStep g session msg k).1).mode = session.mode ∧
      ((runCapabilityStep g session msg k).1).currentCap = session.currentCap := by
  refine ⟨?_, ?_⟩ <;> (unfold runCapabilityStep; dsimp only; split <;> rfl)

theorem runFreeform_same_fields (g : Oracle) (session : Session) (msg : String) :
    ((runFreeform g session msg).1).mode = session.mode ∧
      ((runFreeform g session msg).1).currentCap = session.currentCap := by
  refine ⟨?_, ?_⟩ <;> (unfold runFreeform; dsimp only; split <;> rfl)

theorem routeDemo_inv (g : Oracle) (store : Store) (phone : String) (session : Session)
    (msg : String) (hst : StoreInv store) (hs : SessionInv session)
    (hmode : session.mode ≠ "freeform") :
    StoreInv (routeDemo g store phone session msg).store := by
  unfold routeDemo
  dsimp only
  split
  next =>
    exact storeInv_set _ _ _ hst ⟨hs.1, by simp, fun _ => rfl⟩
  next =>
    split
    next =>
      -- mid-capability branch
      split
      next session1 heq =>
        have h2 := runCapabilityStep_same_fields g session msg false
        rw [heq] at h2
        exact storeInv_set _ _ _ hst (sessionInv_of_same session session1 hs h2.1 h2.2)
      next session1 reply isDone heq =>
        have h2 := runCapabilityStep_same_fields g session msg false
        rw [heq] at h2
        have hinv1 : SessionInv session1 := sessionInv_of_same session session1 hs h2.1 h2.2
        split
        next =>
          exact storeInv_set _ _ _ hst ⟨hinv1.1, by simp, fun _ => rfl⟩
        next =>
          exact storeInv_set _ _ _ hst hinv1
    next =>
      -- capability-selection branch
      split
      next capId heqc =>
        have hkeys := capability_map_keys msg capId heqc
        have hinv1 : SessionInv { session with currentCap := some capId, history := [] } := by
          refine ⟨hs.1, ?_, ?_⟩
          · intro c hcc
            injection hcc with hcc
            subst hcc
            exact hkeys
          · intro hf
            exact absurd hf hmode
        split
        next session2 heq =>
          have h2 := runCapabilityStep_same_fields g
            { session with currentCap := some capId, history := [] } "" true
          rw [heq] at h2
          exact storeInv_set _ _ _ hst (sessionInv_of_same _ session2 hinv1 h2.1 h2.2)
        next session2 reply isDone heq =>
          have h2 := runCapabilityStep_same_fields g
            { session with currentCap := some capId, history := [] } "" true
          rw [heq] at h2
          have hinv2 : SessionInv session2 := sessionInv_of_same _ session2 hinv1 h2.1 h2.2
          split
          next =>
            exact storeInv_set _ _ _ hst ⟨hinv2.1, by simp, fun _ => rfl⟩
          next =>
            exact storeInv_set _ _ _ hst hinv2
      next =>
        exact hst

theorem getSession_inv (store : Store) (phone : String) (hst : StoreInv store) :
    StoreInv (getSession store phone).2 ∧ SessionInv (getSession store phone).1 := by
  unfold getSession
  split
  next s heq => exact ⟨hst, hst phone s heq⟩
  next heq => exact ⟨storeInv_set _ _ _ hst sessionInv_default_demo, sessionInv_default_demo⟩

theorem handleMessage_inv (g : Oracle) (store : Store) (phone body : String)
    (hst : StoreInv store) : StoreInv (handleMessage g store phone body).store := by
  obtain ⟨hst1, hs1⟩ := getSession_inv store phone hst
  unfold handleMessage
  dsimp only
  split
  next => exact storeInv_set _ _ _ hst1 sessionInv_default_demo
  next =>
    split
    next => exact storeInv_set _ _ _ hst1 sessionInv_default_freeform
    next =>
      split
      next => exact storeInv_set _ _ _ hst1 sessionInv_default_demo
      next =>
        split
        next hfree =>
          split
          next session1 heq =>
            have h2 := runFreeform_same_fields g (getSession store phone).1 (trimStr body)
            rw [heq] at h2
            exact storeInv_set _ _ _ hst1 (sessionInv_of_same _ session1 hs1 h2.1 h2.2)
          next session1 reply heq =>
            have h2 := runFreeform_same_fields g (getSession store phone).1 (trimStr body)
            rw [heq] at h2
            exact storeInv_set _ _ _ hst1 (sessionInv_of_same _ session1 hs1 h2.1 h2.2)
        next hfree =>
          split
          next =>
            exact storeInv_set _ _ _ hst1 (sessionInv_of_same _ _ hs1 rfl rfl)
          next =>
            exact routeDemo_inv g (getSession store phone).2 phone (getSession store phone).1
              (trimStr body) hst1 hs1 hfree

theorem runMessages_inv (g : Oracle) (msgs : List (String × String)) :
    ∀ store : Store, StoreInv store → StoreInv (runMessages g store msgs) := by
  induction msgs with
  | nil => intro store h; exact h
  | cons pb rest ih =>
    intro store h
    obtain ⟨phone, body⟩ := pb
    exact ih _ (handleMessage_inv g store phone body h)

theorem storeInv_nil : StoreInv [] := by
  intro q s h
  exact Option.noConfusion h

/-! ## Equations for the dispatcher branches -/

theorem getSession_found (store : Store) (phone : String) (s : Session)
    (h : lookupSession store phone = some s) : getSession store phone = (s, store) := by
  unfold getSession
  rw [h]

theorem getSession_fresh (store : Store) (phone : String)
    (h : lookupSession store phone = none) :
    getSession store phone =
      (defaultSession "demo", setSession store phone (defaultSession "demo")) := by
  unfold getSession
  rw [h]

theorem runCapabilityStep_reply_eq (g : Oracle) (session : Session) (msg reply : String)
    (hg : g (sanitizeHistory session.history 20) msg = some reply) :
    runCapabilityStep g session msg false =
      ({ session with history := (session.history ++ [userTurn msg]) ++ [modelTurn reply] },
        some (stripMarker reply, hasMarker reply)) := by
  unfold runCapabilityStep
  simp only [Bool.false_eq_true, if_false, List.dropLast_concat, hg]

theorem runCapabilityStep_throw_eq (g : Oracle) (session : Session) (msg : String)
    (hg : g (sanitizeHistory session.history 20) msg = none) :
    runCapabilityStep g session msg false =
      ({ session with history := session.history ++ [userTurn msg] }, none) := by
  unfold runCapabilityStep
  simp only [Bool.false_eq_true, if_false, List.dropLast_concat, hg]

theorem routeDemo_midcap_throw (g : Oracle) (store : Store) (phone : String)
    (session : Session) (msg : String) (cap : String)
    (hz : msg ≠ "0") (hcap : session.currentCap = some cap)
    (hg : g (sanitizeHistory session.history 20) msg = none) :
    routeDemo g store phone session msg =
      ⟨setSession store phone { session with history := session.history ++ [userTurn msg] },
        [], true⟩ := by
  unfold routeDemo
  dsimp only
  rw [if_neg hz, hcap]
  dsimp only
  rw [runCapabilityStep_throw_eq g session msg hg]
  dsimp only
  rw [hcap]

theorem handleMessage_routeDemo (g : Oracle) (store : Store) (phone body : String)
    (s : Session)
    (hs : lookupSession store phone = some s)
    (a1 : upperStr (trimStr body) ≠ "ADMIN RESET")
    (a2 : upperStr (trimStr body) ≠ "ADMIN FREEFORM")
    (a3 : upperStr (trimStr body) ≠ "ADMIN DEMO")
    (hmode : s.mode ≠ "freeform") (hnew : s.isNew = false) :
    handleMessage g store phone body = routeDemo g store phone s (trimStr body) := by
  unfold handleMessage
  dsimp only
  rw [getSession_found store phone s hs]
  dsimp only
  rw [if_neg a1, if_neg a2, if_neg a3, if_neg hmode, hnew]
  simp only [Bool.false_eq_true, if_false]

/-! ## The claims -/

set_option maxRecDepth 40000

/-- C1: for every input turn sequence and every window size, the sequence
returned by `sanitizeHistory` has no two adjacent turns with the same
role, and when it is non-empty its first turn has role `user` and its
last turn does not have role `user`. -/
theorem claim_sanitize_alternation (raw : List Turn) (maxTurns : Nat) :
    List.Chain' (fun a b => a.role ≠ b.role) (sanitizeHistory raw maxTurns) ∧
      (∀ t, (sanitizeHistory raw maxTurns).head? = some t → t.role = "user") ∧
      (∀ t, (sanitizeHistory raw maxTurns).getLast? = some t → t.role ≠ "user") :=
  sanitize_core raw maxTurns

theorem claim_sanitize_alternation_witness :
    (sanitizeHistory [modelTurn "x", userTurn "a", userTurn "b", modelTurn "c"] 10).head? =
        some (userTurn "a") ∧
      (userTurn "a").role = "user" ∧
      (sanitizeHistory [modelTurn "x", userTurn "a", userTurn "b", modelTurn "c"] 10).getLast? =
        some (modelTurn "c") ∧
      (modelTurn "c").role ≠ "user" :=
  ⟨by decide,
    (claim_sanitize_alternation [modelTurn "x", userTurn "a", userTurn "b", modelTurn "c"]
        10).2.1 (userTurn "a") (by decide),
    by decide,
    (claim_sanitize_alternation [modelTurn "x", userTurn "a", userTurn "b", modelTurn "c"]
        10).2.2 (modelTurn "c") (by decide)⟩

/-- C2: in the older server generation the capability-selection check runs
before the mid-capability check, so with `currentCap = some "schedule"`
already active, the inbound token `3` is treated as a fresh capability
selection: `currentCap` switches to `mental` and the history is cleared,
contradicting the claimed precedence of the mid-capability branch. -/
theorem claim_midcap_token_reselects_v1 :
    (handleMessageV1 okOracle
        [("p", ⟨"demo", [userTurn "hi", modelTurn "hello"], false, some "schedule"⟩)]
        "p" "3").store =
      [("p", ⟨"demo", [modelTurn "ok"], false, some "mental"⟩)] ∧
    (handleMessageV1 okOracle
        [("p", ⟨"demo", [userTurn "hi", modelTurn "hello"], false, some "schedule"⟩)]
        "p" "3").sent = ["ok"] := by decide

/-- C3: any reply containing the completion marker is detected by the
substring search (even mid-string) and `runCapabilityStep` reports
`isComplete = true` with the reply text equal to the raw reply with the
single marker occurrence removed and trimmed; in particular
`"Great job! [DEMO_COMPLETE]"` yields `true` and `"Great job!"`. -/
theorem claim_completion_marker :
    (∀ pre post : List Char, containsSub marker (pre ++ marker ++ post) = true) ∧
    (∀ s : List Char, containsSub marker s = true →
      ∃ pre post, s = pre ++ marker ++ post ∧ replaceFirst marker s = pre ++ post) ∧
    (∀ (g : Oracle) (session : Session) (msg reply : String),
      g (sanitizeHistory session.history 20) msg = some reply →
      hasMarker reply = true →
      (runCapabilityStep g session msg false).2 = some (stripMarker reply, true)) ∧
    hasMarker "Great job! [DEMO_COMPLETE]" = true ∧
    stripMarker "Great job! [DEMO_COMPLETE]" = "Great job!" := by
  refine ⟨containsSub_append_marker, containsSub_decomp, ?_, by decide, by decide⟩
  intro g session msg reply hg hm
  rw [runCapabilityStep_reply_eq g session msg reply hg, hm]

theorem claim_completion_marker_witness :
    (∃ pre post, "Great job! [DEMO_COMPLETE]".data = pre ++ marker ++ post ∧
      replaceFirst marker ("Great job! [DEMO_COMPLETE]".data) = pre ++ post) ∧
    (runCapabilityStep markerOracle (defaultSession "demo") "hi" false).2 =
      some (stripMarker "Great job! [DEMO_COMPLETE]", true) :=
  ⟨claim_completion_marker.2.1 _ (by decide),
    claim_completion_marker.2.2.1 markerOracle (defaultSession "demo") "hi"
      "Great job! [DEMO_COMPLETE]" rfl (by decide)⟩

/-- C4: the history sanitizer is idempotent: sanitizing an already
sanitized sequence (with the same window size) returns it unchanged. -/
theorem claim_sanitize_idempotent (turns : List Turn) (maxTurns : Nat) :
    sanitizeHistory (sanitizeHistory turns maxTurns) maxTurns =
      sanitizeHistory turns maxTurns := by
  obtain ⟨halt, hhead, hlast⟩ := sanitize_core turns maxTurns
  by_cases hn : maxTurns = 0
  · subst hn
    apply sanitize_fix _ _ halt hhead hlast
    unfold jsSliceLast
    rw [if_pos rfl]
  · apply sanitize_fix _ _ halt hhead hlast
    exact jsSliceLast_self _ _ (sanitize_length_le turns maxTurns hn)

/-- C5: the sanitizer maps the empty sequence to the empty sequence, and a
single assistant (`model`) turn also to the empty sequence. -/
theorem claim_sanitize_empty_single (maxTurns : Nat) (text : String) :
    sanitizeHistory [] maxTurns = [] ∧ sanitizeHistory [modelTurn text] maxTurns = [] := by
  constructor
  · rw [sanitizeHistory_def]
    have h0 : jsSliceLast [] maxTurns = [] := by
      unfold jsSliceLast
      split <;> simp
    rw [h0]
    rfl
  · rw [sanitizeHistory_def]
    have h1 : jsSliceLast [modelTurn text] maxTurns = [modelTurn text] := by
      unfold jsSliceLast
      split
      · rfl
      · next hn =>
        have hz : [modelTurn text].length - maxTurns = 0 := by
          simp only [List.length_cons, List.length_nil]
          omega
        rw [hz, List.drop_zero]
    rw [h1]
    rfl

/-- C6: the sanitizer is pure: the operational run of the function body
(`sanitizeRun`, which threads every local variable of the source
explicitly) leaves the input array `raw` unchanged and its freshly built
`result` agrees with the functional `sanitizeHistory`, which being a
function is deterministic on equal inputs. -/
theorem claim_sanitize_pure (raw : List Turn) (maxTurns : Nat) :
    (sanitizeRun raw maxTurns).raw = raw ∧
      (sanitizeRun raw maxTurns).result = sanitizeHistory raw maxTurns := by
  have hraw := sanLoop_raw ((jsSliceLast raw maxTurns).dropWhile (fun t => t.role != "user"))
    ⟨raw, maxTurns, jsSliceLast raw maxTurns, []⟩
  have hres := sanLoop_result ((jsSliceLast raw maxTurns).dropWhile (fun t => t.role != "user"))
    ⟨raw, maxTurns, jsSliceLast raw maxTurns, []⟩
  unfold sanitizeRun
  dsimp only
  constructor
  · split
    next h => exact hraw
    next h => exact hraw
  · rw [sanitizeHistory_def]
    split
    next h =>
      show (sanLoop ⟨raw, maxTurns, jsSliceLast raw maxTurns, []⟩
        ((jsSliceLast raw maxTurns).dropWhile (fun t => t.role != "user"))).result.dropLast = _
      rw [hres] at h ⊢
      rw [if_pos h]
    next h =>
      rw [hres] at h ⊢
      rw [if_neg h]

/-- C7: after `ADMIN RESET` the session is the demo default (mode `demo`,
empty history, no active capability, first-contact flag set), and the next
non-administrative message from the same phone takes the first-contact
branch: it emits the menu and clears the flag. -/
theorem claim_admin_reset_clears (g g2 : Oracle) (store : Store) (phone body body2 : String)
    (hcmd : upperStr (trimStr body) = "ADMIN RESET")
    (h1 : upperStr (trimStr body2) ≠ "ADMIN RESET")
    (h2 : upperStr (trimStr body2) ≠ "ADMIN FREEFORM")
    (h3 : upperStr (trimStr body2) ≠ "ADMIN DEMO") :
    (handleMessage g store phone body).sent = [adminResetReply, MENU] ∧
    lookupSession (handleMessage g store phone body).store phone =
      some (defaultSession "demo") ∧
    (defaultSession "demo").mode = "demo" ∧
    (defaultSession "demo").history = [] ∧
    (defaultSession "demo").isNew = true ∧
    (defaultSession "demo").currentCap = none ∧
    (handleMessage g2 (handleMessage g store phone body).store phone body2).sent = [MENU] ∧
    lookupSession
        (handleMessage g2 (handleMessage g store phone body).store phone body2).store phone =
      some { defaultSession "demo" with isNew := false } := by
  have hout : handleMessage g store phone body =
      ⟨setSession (getSession store phone).2 phone (defaultSession "demo"),
        [adminResetReply, MENU], false⟩ := by
    unfold handleMessage
    dsimp only
    rw [if_pos hcmd]
  have hlookS : lookupSession
      (setSession (getSession store phone).2 phone (defaultSession "demo")) phone =
      some (defaultSession "demo") := lookup_setSession_self _ _ _
  have hmsg2 : handleMessage g2
        (setSession (getSession store phone).2 phone (defaultSession "demo")) phone body2 =
      ⟨setSession (setSession (getSession store phone).2 phone (defaultSession "demo")) phone
          { defaultSession "demo" with isNew := false }, [MENU], false⟩ := by
    unfold handleMessage
    dsimp only
    rw [getSession_found _ phone _ hlookS]
    dsimp only
    rw [if_neg h1, if_neg h2, if_neg h3]
    rw [if_neg (show ¬(defaultSession "demo").mode = "freeform" by decide)]
    rw [if_pos (show (defaultSession "demo").isNew = true from rfl)]
  refine ⟨by rw [hout], by rw [hout]; exact hlookS, rfl, rfl, rfl, rfl, ?_, ?_⟩
  · rw [hout]
    dsimp only
    rw [hmsg2]
  · rw [hout]
    dsimp only
    rw [hmsg2]
    exact lookup_setSession_self _ _ _

theorem claim_admin_reset_clears_witness :
    upperStr (trimStr "ADMIN RESET") = "ADMIN RESET" ∧
    ((handleMessage okOracle [] "p" "ADMIN RESET").sent = [adminResetReply, MENU] ∧
      lookupSession (handleMessage okOracle [] "p" "ADMIN RESET").store "p" =
        some (defaultSession "demo") ∧
      (defaultSession "demo").mode = "demo" ∧
      (defaultSession "demo").history = [] ∧
      (defaultSession "demo").isNew = true ∧
      (defaultSession "demo").currentCap = none ∧
      (handleMessage okOracle (handleMessage okOracle [] "p" "ADMIN RESET").store "p" "hi").sent =
        [MENU] ∧
      lookupSession
          (handleMessage okOracle
            (handleMessage okOracle [] "p" "ADMIN RESET").store "p" "hi").store "p" =
        some { defaultSession "demo" with isNew := false }) :=
  ⟨by decide,
    claim_admin_reset_clears okOracle okOracle [] "p" "ADMIN RESET" "hi"
      (by decide) (by decide) (by decide) (by decide)⟩

/-- C8 counterexample: for a brand-new identity whose first message is the
administrative command `ADMIN FREEFORM`, no inbound message triggers the
welcome menu: the first is consumed by the admin branch (which flips the
session to freeform) and the second is handled by the freeform engine. -/
theorem claim_first_contact_counterexample :
    MENU ∉ (handleMessage okOracle [] "p" "ADMIN FREEFORM").sent ∧
    MENU ∉ (handleMessage okOracle
        (handleMessage okOracle [] "p" "ADMIN FREEFORM").store "p" "hello").sent ∧
    lookupSession (handleMessage okOracle [] "p" "ADMIN FREEFORM").store "p" =
      some (defaultSession "freeform") := by decide

/-- C8 (amended): for every new identity, the first inbound message that
is not an administrative command triggers the welcome menu regardless of
its content, consuming the first-contact flag; a second non-administrative
message — even verbatim identical — is routed through the normal
demo-mode state machine (`routeDemo`), not the first-contact branch. -/
theorem claim_first_contact_amended (g g2 : Oracle) (store : Store)
    (phone body body2 : String)
    (hfresh : lookupSession store phone = none)
    (b1 : upperStr (trimStr body) ≠ "ADMIN RESET")
    (b2 : upperStr (trimStr body) ≠ "ADMIN FREEFORM")
    (b3 : upperStr (trimStr body) ≠ "ADMIN DEMO")
    (c1 : upperStr (trimStr body2) ≠ "ADMIN RESET")
    (c2 : upperStr (trimStr body2) ≠ "ADMIN FREEFORM")
    (c3 : upperStr (trimStr body2) ≠ "ADMIN DEMO") :
    (handleMessage g store phone body).sent = [MENU] ∧
    (handleMessage g store phone body).threw = false ∧
    lookupSession (handleMessage g store phone body).store phone =
      some { defaultSession "demo" with isNew := false } ∧
    handleMessage g2 (handleMessage g store phone body).store phone body2 =
      routeDemo g2 (handleMessage g store phone body).store phone
        { defaultSession "demo" with isNew := false } (trimStr body2) := by
  have hout : handleMessage g store phone body =
      ⟨setSession (setSession store phone (defaultSession "demo")) phone
          { defaultSession "demo" with isNew := false }, [MENU], false⟩ := by
    unfold handleMessage
    dsimp only
    rw [getSession_fresh store phone hfresh]
    dsimp only
    rw [if_neg b1, if_neg b2, if_neg b3]
    rw [if_neg (show ¬(defaultSession "demo").mode = "freeform" by decide)]
    rw [if_pos (show (defaultSession "demo").isNew = true from rfl)]
  have hlook : lookupSession (handleMessage g store phone body).store phone =
      some { defaultSession "demo" with isNew := false } := by
    rw [hout]
    exact lookup_setSession_self _ _ _
  refine ⟨by rw [hout], by rw [hout], hlook, ?_⟩
  exact handleMessage_routeDemo g2 _ phone body2 _ hlook c1 c2 c3 (by decide) rfl

theorem claim_first_contact_amended_witness :
    lookupSession ([] : Store) "p" = none ∧
    ((handleMessage okOracle [] "p" "hello").sent = [MENU] ∧
      (handleMessage okOracle [] "p" "hello").threw = false ∧
      lookupSession (handleMessage okOracle [] "p" "hello").store "p" =
        some { defaultSession "demo" with isNew := false } ∧
      handleMessage okOracle (handleMessage okOracle [] "p" "hello").store "p" "hello" =
        routeDemo okOracle (handleMessage okOracle [] "p" "hello").store "p"
          { defaultSession "demo" with isNew := false } (trimStr "hello")) :=
  ⟨rfl,
    claim_first_contact_amended okOracle okOracle [] "p" "hello" "hello" rfl
      (by decide) (by decide) (by decide) (by decide) (by decide) (by decide)⟩

/-- C9: when the completion-service call of the demo step throws, the
exception leaves `handleMessage` (threw flag) but is caught at the
webhook boundary: `smsRoute` returns normally, the user receives only the
generic error message naming `ADMIN RESET`, and the stored session keeps
its mode and capability with history extended by exactly the failing user
turn and no assistant turn. -/
theorem claim_completion_error_caught (g : Oracle) (store : Store) (phone body : String)
    (s : Session) (cap : String)
    (hs : lookupSession store phone = some s)
    (hmode : s.mode = "demo") (hnew : s.isNew = false)
    (hcap : s.currentCap = some cap)
    (a1 : upperStr (trimStr body) ≠ "ADMIN RESET")
    (a2 : upperStr (trimStr body) ≠ "ADMIN FREEFORM")
    (a3 : upperStr (trimStr body) ≠ "ADMIN DEMO")
    (hz : trimStr body ≠ "0")
    (hg : g (sanitizeHistory s.history 20) (trimStr body) = none) :
    (handleMessage g store phone body).threw = true ∧
    smsRoute g store phone body =
      (setSession store phone { s with history := s.history ++ [userTurn (trimStr body)] },
        [handlerErrorReply]) := by
  have hroute := handleMessage_routeDemo g store phone body s hs a1 a2 a3
    (by rw [hmode]; decide) hnew
  have hmid := routeDemo_midcap_throw g store phone s (trimStr body) cap hz hcap hg
  have hfull : handleMessage g store phone body =
      ⟨setSession store phone { s with history := s.history ++ [userTurn (trimStr body)] },
        [], true⟩ := by
    rw [hroute, hmid]
  constructor
  · rw [hfull]
  · unfold smsRoute
    rw [hfull]
    rfl

theorem claim_completion_error_caught_witness :
    lookupSession
        [("p", Session.mk "demo" [userTurn "a", modelTurn "b"] false (some "medication"))] "p" =
      some (Session.mk "demo" [userTurn "a", modelTurn "b"] false (some "medication")) ∧
    ((handleMessage failOracle
        [("p", Session.mk "demo" [userTurn "a", modelTurn "b"] false (some "medication"))]
        "p" "hey").threw = true ∧
      smsRoute failOracle
          [("p", Session.mk "demo" [userTurn "a", modelTurn "b"] false (some "medication"))]
          "p" "hey" =
        (setSession
            [("p", Session.mk "demo" [userTurn "a", modelTurn "b"] false (some "medication"))]
            "p"
            (Session.mk "demo"
              ([userTurn "a", modelTurn "b"] ++ [userTurn (trimStr "hey")]) false
              (some "medication")),
          [handlerErrorReply])) :=
  ⟨by decide,
    claim_completion_error_caught failOracle
      [("p", Session.mk "demo" [userTurn "a", modelTurn "b"] false (some "medication"))]
      "p" "hey" (Session.mk "demo" [userTurn "a", modelTurn "b"] false (some "medication"))
      "medication" (by decide) rfl rfl rfl (by decide) (by decide) (by decide) (by decide) rfl⟩

/-- C10: every session reachable from the empty store by any sequence of
handled messages has mode `demo` or `freeform`, an active capability that
is a registered key of `CAPABILITIES` and `INSIGHTS` when present, and no
active capability while in freeform mode. -/
theorem claim_reachable_session_invariant (g : Oracle) (msgs : List (String × String))
    (phone : String) (s : Session)
    (h : lookupSession (runMessages g [] msgs) phone = some s) :
    (s.mode = "demo" ∨ s.mode = "freeform") ∧
      (∀ c, s.currentCap = some c → (CAPABILITIES c).isSome ∧ (INSIGHTS c).isSome) ∧
      (s.mode = "freeform" → s.currentCap = none) :=
  runMessages_inv g msgs [] storeInv_nil phone s h

theorem claim_reachable_session_invariant_witness :
    lookupSession (runMessages okOracle [] [("p", "hi")]) "p" =
        some (Session.mk "demo" [] false none) ∧
      (((Session.mk "demo" [] false none).mode = "demo" ∨
          (Session.mk "demo" [] false none).mode = "freeform") ∧
        (∀ c, (Session.mk "demo" [] false none).currentCap = some c →
          (CAPABILITIES c).isSome ∧ (INSIGHTS c).isSome) ∧
        ((Session.mk "demo" [] false none).mode = "freeform" →
          (Session.mk "demo" [] false none).currentCap = none)) :=
  ⟨by decide,
    claim_reachable_session_invariant okOracle [("p", "hi")] "p"
      (Session.mk "demo" [] false none) (by decide)⟩

end SimisAI
